import Mathlib

/-!
Verification development for the `tui-candlestick-chart` repository.

The repository renders OHLC candle series as Unicode glyph columns inside a
terminal cell buffer.  We shallowly embed the Rust sources:

* `f64` values (prices, row coordinates) are modelled as exact rationals `ℚ`;
  the code wraps every float in `OrderedFloat`, and all comparisons and
  arithmetic used by the claims are order/field operations that `ℚ` models
  exactly (float rounding is idealized away; where a claim's truth depends on
  a division-by-zero `NaN`, this is noted at the theorem).
* `i64` timestamps are `ℤ`, `u16` dimensions are `ℕ`.
* Fallible code (constructors returning `Option`, arithmetic that panics in
  debug builds such as `u16` underflow) is modelled with `Option`.

File map of the embedding (Rust file → Lean definitions):
* `src/candle.rs` → `Candle`, `Candle.new`, `candleCell`, `Candle.render`
* `src/y_axis.rs` → `Numeric`, `Grid`, `YAxis`, `YAxis.calc_y`, `YAxis.render`
* `src/x_axis.rs` → `Interval`, `XAxis.fullTimestamps`, `XAxis.render`
* `src/candlestick_chart_state.rs` → `ChartInfo`, `ChartState` and its moves
* `src/candlestick_chart.rs` → `CandleStickChart`, `renderChart`
-/

namespace CandleChart

/-- Modelled from the spec: the glyph palette of the missing `src/symbols.rs`
(`UNICODE_VOID`, `UNICODE_BODY`, `UNICODE_WICK`, half variants and the
up/down transition glyphs).  Only the identity of the nine distinct glyph
constants matters to the renderer; their Unicode characters (recorded in
`Glyph.toChar`) are taken from the spec's palette description and from the
buffer-level unit tests in `src/candlestick_chart.rs`. -/
inductive Glyph where
  | void
  | body
  | wick
  | up
  | down
  | halfBodyTop
  | halfBodyBottom
  | halfWickTop
  | halfWickBottom
deriving DecidableEq, Repr

/-- Modelled from the spec: the character each glyph constant of the missing
`src/symbols.rs` denotes, as exercised by the rendering tests. -/
def Glyph.toChar : Glyph → Char
  | .void => ' '
  | .body => '┃'
  | .wick => '│'
  | .up => '╽'
  | .down => '╿'
  | .halfBodyTop => '╹'
  | .halfBodyBottom => '╻'
  | .halfWickTop => '╵'
  | .halfWickBottom => '╷'

/-- `CandleType` from `src/candle.rs`. -/
inductive CandleType where
  | bearish
  | bullish
deriving DecidableEq, Repr

/-- `Interval` enum from `src/x_axis.rs` (`#[repr(i64)]`, duration in
seconds). -/
inductive Interval where
  | oneSecond
  | oneMinute
  | threeMinutes
  | fiveMinutes
  | fifteenMinutes
  | thirtyMinutes
  | oneHour
  | twoHours
  | fourHours
  | sixHours
  | eightHours
  | twelveHours
  | oneDay
  | threeDays
  | oneWeek
deriving DecidableEq, Repr

/-- The `i64` value of each `Interval` variant (its `#[repr(i64)]`
discriminant, the duration in seconds). -/
def Interval.toSec : Interval → ℤ
  | .oneSecond => 1
  | .oneMinute => 60
  | .threeMinutes => 180
  | .fiveMinutes => 300
  | .fifteenMinutes => 900
  | .thirtyMinutes => 1800
  | .oneHour => 3600
  | .twoHours => 7200
  | .fourHours => 14400
  | .sixHours => 21600
  | .eightHours => 28800
  | .twelveHours => 43200
  | .oneDay => 86400
  | .threeDays => 259200
  | .oneWeek => 604800

theorem Interval.toSec_pos (i : Interval) : 0 < i.toSec := by
  cases i <;> decide

/-- `Interval::render_gap` from `src/x_axis.rs`. -/
def Interval.render_gap : Interval → ℕ
  | .oneSecond => 30
  | .oneMinute => 15
  | .threeMinutes => 20
  | .fiveMinutes => 12
  | .fifteenMinutes => 8
  | .thirtyMinutes => 8
  | .oneHour => 12
  | .twoHours => 12
  | .fourHours => 18
  | .sixHours => 12
  | .eightHours => 9
  | .twelveHours => 14
  | .oneDay => 30
  | .threeDays => 30
  | .oneWeek => 12

/-- `Precision` from `src/x_axis.rs`. -/
inductive Precision where
  | second
  | minute
  | day
deriving DecidableEq, Repr

/-- `Interval::render_precision` from `src/x_axis.rs`. -/
def Interval.render_precision : Interval → Precision
  | .oneSecond => .second
  | .oneDay => .day
  | .threeDays => .day
  | .oneWeek => .day
  | _ => .minute

/-! ### Numeric formatting (`src/y_axis.rs`) -/

/-- `Numeric` from `src/y_axis.rs`: `precision` is the total right-aligned
field width and `scale` the number of fractional digits. -/
structure Numeric where
  precision : ℕ
  scale : ℕ
deriving DecidableEq, Repr

/-- `Numeric::default()` = `Numeric::new(9, 3)`. -/
def Numeric.default : Numeric := ⟨9, 3⟩

/-- Round a rational to the nearest integer, ties to even: the rounding Rust's
fixed-precision float `Display` applies to the (here exact) value. -/
def roundHalfEven (q : ℚ) : ℤ :=
  let fl := ⌊q⌋
  let r := q - (fl : ℚ)
  if r < 1/2 then fl
  else if 1/2 < r then fl + 1
  else if fl % 2 = 0 then fl else fl + 1

/-- Left-pad a string to `n` characters with `c`. -/
def padLeft (c : Char) (n : ℕ) (s : String) : String :=
  String.mk (List.replicate (n - s.length) c) ++ s

/-- `Numeric::format` from `src/y_axis.rs`:
`format!("{0:>precision$.scale$}", value)` — fixed-point with `scale`
fractional digits, right-aligned in a field of width `precision`. -/
def Numeric.format (nu : Numeric) (value : ℚ) : String :=
  let scaled : ℤ := roundHalfEven (value * (10 : ℚ) ^ nu.scale)
  let m := scaled.natAbs
  let intPart := m / 10 ^ nu.scale
  let fracPart := m % 10 ^ nu.scale
  let core :=
    (if scaled < 0 then "-" else "") ++ toString intPart ++
      (if nu.scale = 0 then "" else "." ++ padLeft '0' nu.scale (toString fracPart))
  padLeft ' ' nu.precision core

/-- `Grid` from `src/y_axis.rs`; `Accurate` is the default. -/
inductive Grid where
  | accurate
  | readable
deriving DecidableEq, Repr

/-! ### Value axis (`src/y_axis.rs`) -/

/-- `YAxis` struct from `src/y_axis.rs`. -/
structure YAxis where
  numeric : Numeric
  grid : Grid
  height : ℕ
  min : ℚ
  max : ℚ
  unit : ℚ
deriving DecidableEq, Repr

/-- `YAxis::new` from `src/y_axis.rs` (the `assert!(min <= max)` is a fatal
precondition; theorems that rely on it carry it as a hypothesis).  The
`numeric` argument is the already-resolved formatting spec: the
`Numeric::auto_from_min_max` fallback (which inspects the shortest `f64`
scientific representation of `max - min`, an artifact of binary float
printing) is outside every claim and is not modelled; all call sites in this
file pass an explicit `Numeric`, as the compositor does with
`Numeric::default()`. -/
def YAxis.new (numeric : Numeric) (grid : Grid) (height : ℕ) (mn mx : ℚ) : YAxis :=
  { numeric := numeric
    grid := grid
    height := height
    min := mn
    max := mx
    unit := (mx - mn) / (height : ℚ) }

/-- `YAxis::calc_y` from `src/y_axis.rs`: `(value - self.min) / self.unit`. -/
def YAxis.calc_y (ya : YAxis) (value : ℚ) : ℚ :=
  (value - ya.min) / ya.unit

/-- Truncation toward zero of a rational, Rust's `as i32` / `as i64` cast of
an `f64`. -/
def truncToInt (q : ℚ) : ℤ :=
  if 0 ≤ q then ⌊q⌋ else -⌊-q⌋

/-- Truncation toward zero of `log10 q` as Rust's `(q.log10()) as i32`
computes it for a positive finite `q` (for `q ≤ 0`, `log10` is `NaN` and the
cast yields `0`). -/
def log10Trunc (q : ℚ) : ℤ :=
  if 0 < q then
    if 1 ≤ q then (Nat.log 10 ⌊q⌋.toNat : ℤ)
    else
      let m : ℕ := Nat.clog 10 ⌈1 / q⌉.toNat
      if (1 / (10 : ℚ) ^ m) = q then -(m : ℤ) else -(m : ℤ) + 1
  else 0

/-- Integer range `[a, b]` as a list (the Rust `a..=b` iterator over `i32`). -/
def intRange (a b : ℤ) : List ℤ :=
  (List.range (b + 1 - a).toNat).map (fun (k : ℕ) => a + (k : ℤ))

/-- The mark chosen for one row band under the `Readable` grid strategy
(`src/y_axis.rs` lines 137-144): candidate multiples of `actual_unit` inside
`[low, high]`, keyed by distance to the band midpoint, stably sorted, first
taken. -/
def readableMark (actualUnit lo hi : ℚ) : Option ℚ :=
  let mid := (hi + lo) / 2
  let cands := (intRange (truncToInt (lo / actualUnit)) (truncToInt (hi / actualUnit))).map
    (fun c => (c : ℚ) * actualUnit)
  let cands := cands.filter (fun mark => decide (lo ≤ mark) && decide (mark ≤ hi))
  let keyed := cands.map (fun mark => (|mark - mid|, mark))
  keyed.foldl
    (fun best dm =>
      match best with
      | none => some dm
      | some best0 => if dm.1 < best0.1 then some dm else some best0)
    none |>.map (·.2)

/-- `YAxis::render` from `src/y_axis.rs`: one formatted string per row, top
row first.  `Accurate`: every 4th row from the top is a tick ` {value} ├ `,
others are blank padding ` {spaces} │ `.  `Readable`: each row band is
searched for the readable multiple nearest its midpoint. -/
def YAxis.render (ya : YAxis) : List String :=
  let maxChars := Nat.max (ya.numeric.format ya.max).length (ya.numeric.format ya.min).length
  match ya.grid with
  | .accurate =>
    (List.range ya.height).map (fun i =>
      if (i % 4 : ℕ) = 0 then
        " " ++ ya.numeric.format (ya.max - ya.unit * (i : ℚ)) ++ " ├ "
      else
        " " ++ String.mk (List.replicate maxChars ' ') ++ " │ ")
  | .readable =>
    let readableUnit : ℚ := if 0 ≤ log10Trunc ya.unit
      then (10 : ℚ) ^ (log10Trunc ya.unit).toNat
      else 1 / (10 : ℚ) ^ (-(log10Trunc ya.unit)).toNat
    let minSpace : ℚ := 4
    let co := truncToInt (minSpace * ya.unit / readableUnit)
    let actualUnit : ℚ :=
      (((([1, 5, 10, 20, 50, 100] : List ℤ).find? (fun c => co ≤ c)).getD 100 : ℤ) : ℚ) *
        readableUnit
    let bounds := (List.range (ya.height + 1)).map (fun i => ya.max - ya.unit * (i : ℚ))
    (bounds.zip bounds.tail).map (fun hilo =>
      match readableMark actualUnit hilo.2 hilo.1 with
      | some mark => " " ++ ya.numeric.format mark ++ " ├ "
      | none => " " ++ String.mk (List.replicate maxChars ' ') ++ " │ ")

/-- `YAxis::estimated_width` from `src/y_axis.rs`: worst-case label width of
the two range endpoints plus 4 columns of axis decoration (same note as
`YAxis.new` about the explicit `numeric`). -/
def YAxis.estimated_width (numeric : Numeric) (mn mx : ℚ) : ℕ :=
  Nat.max (numeric.format mx).length (numeric.format mn).length + 4

/-! ### Candle and its glyph renderer (`src/candle.rs`) -/

/-- `Candle` from `src/candle.rs` (prices are `OrderedFloat<f64>`, modelled
as `ℚ`). -/
structure Candle where
  timestamp : ℤ
  open_ : ℚ
  high : ℚ
  low : ℚ
  close : ℚ
deriving DecidableEq, Repr

/-- `Candle::new` from `src/candle.rs`: succeeds exactly when
`high >= low`. -/
def Candle.new (timestamp : ℤ) (o h l c : ℚ) : Option Candle :=
  if l ≤ h then
    some { timestamp := timestamp, open_ := o, high := h, low := l, close := c }
  else
    none

/-- One row of `Candle::render` (`src/candle.rs` lines 48-113): the glyph for
integer row `y` given the fractional row coordinates `hi = calc_y(high)`,
`mx = max(open,close)`, `mn = min(open,close)`, `lo = calc_y(low)` (all under
`calc_y`), threading the `is_body` flag.  The two `debug_assert!`s of the
source (`hi ≥ mx`, `mn ≥ lo`) are diagnostics, not control flow, and are not
modelled. -/
def candleCell (hi mx mn lo : ℚ) (y : ℤ) (isBody : Bool) : Glyph × Bool :=
  if (⌈hi⌉ : ℚ) ≥ (y : ℚ) ∧ (y : ℚ) ≥ (⌊mx⌋ : ℚ) then
    if hi - (y : ℚ) > 1/2 then
      if hi - mx < 1/4 then (.body, true)
      else if hi - mx < 3/4 then
        if isBody then (.body, true) else (.up, true)
      else (.wick, isBody)
    else if hi - (y : ℚ) ≥ 0 then
      if hi - mx < 1/4 then (.halfBodyBottom, isBody) else (.halfWickBottom, isBody)
    else (.void, isBody)
  else if (⌊mx⌋ : ℚ) ≥ (y : ℚ) ∧ (y : ℚ) ≥ (⌈mn⌉ : ℚ) then
    (.body, true)
  else if (⌈mn⌉ : ℚ) ≥ (y : ℚ) ∧ (y : ℚ) ≥ (⌊lo⌋ : ℚ) then
    if lo - (y : ℚ) < 1/2 then
      if mn - lo < 1/4 then (.body, true)
      else if mn - lo < 3/4 then
        if isBody then (.down, false) else (.wick, isBody)
      else (.wick, isBody)
    else if lo - (y : ℚ) ≤ 1 then
      if mn - lo < 1/4 then (.halfBodyTop, isBody) else (.halfWickTop, isBody)
    else (.void, isBody)
  else (.void, isBody)

/-- The row loop of `Candle::render`: rows are visited from `y = height - 1`
down to `0` (top of the column first), threading `is_body`. -/
def candleRows (hi mx mn lo : ℚ) : List ℤ → Bool → List Glyph
  | [], _ => []
  | y :: ys, b =>
    let gb := candleCell hi mx mn lo y b
    gb.1 :: candleRows hi mx mn lo ys gb.2

/-- The list of row indices `(0..height).rev()`: `height - 1, …, 1, 0`. -/
def rowsTopDown (height : ℕ) : List ℤ :=
  ((List.range height).reverse).map (fun (y : ℕ) => (y : ℤ))

/-- `Candle::render` from `src/candle.rs`: the candle type (bullish iff
`open <= close`) and the glyph column, top row first. -/
def Candle.render (c : Candle) (ya : YAxis) : CandleType × List Glyph :=
  let o := ya.calc_y c.open_
  let cl := ya.calc_y c.close
  let mn := min o cl
  let hi := ya.calc_y c.high
  let lo := ya.calc_y c.low
  let mx := max o cl
  let column := candleRows hi mx mn lo (rowsTopDown ya.height) false
  (if o ≤ cl then CandleType.bullish else CandleType.bearish, column)

/-! ### Calendar arithmetic

The time axis formats timestamps through the external `chrono` crate.  We
model the proleptic-Gregorian conversion `chrono` performs (millisecond epoch
timestamp → civil date and time-of-day) with the standard civil-from-days
algorithm; the display offset (`FixedOffset`) is a second shift added before
conversion. -/

/-- Civil (year, month, day) of a day count relative to 1970-01-01. -/
def civilFromDays (z0 : ℤ) : ℤ × ℤ × ℤ :=
  let z := z0 + 719468
  let era := Int.fdiv z 146097
  let doe := z - era * 146097
  let yoe := (doe - doe / 1460 + doe / 36524 - doe / 146096) / 365
  let y := yoe + era * 400
  let doy := doe - (365 * yoe + yoe / 4 - yoe / 100)
  let mp := (5 * doy + 2) / 153
  let d := doy - (153 * mp + 2) / 5 + 1
  let m := mp + (if mp < 10 then 3 else -9)
  (y + (if m ≤ 2 then 1 else 0), m, d)

/-- Break a millisecond timestamp into `(year, month, day, hour, minute,
second)`. -/
def civilOfMillis (ms : ℤ) : ℤ × ℤ × ℤ × ℤ × ℤ × ℤ :=
  let days := Int.fdiv ms 86400000
  let msod := ms - days * 86400000
  let secs := msod / 1000
  let ymd := civilFromDays days
  (ymd.1, ymd.2.1, ymd.2.2, secs / 3600, (secs / 60) % 60, secs % 60)

/-- Zero-pad the decimal rendering of a nonnegative integer to `n` digits
(chrono's `%m`, `%d`, `%H`, `%M`, `%S` use two, `%Y` four). -/
def padNum (n : ℕ) (z : ℤ) : String :=
  padLeft '0' n (toString z.natAbs)

/-- chrono `format("%Y")` of a shifted timestamp. -/
def fmtYear (ms : ℤ) : String := padNum 4 (civilOfMillis ms).1

/-- chrono `format("%m/%d")`. -/
def fmtMonthDay (ms : ℤ) : String :=
  let c := civilOfMillis ms
  padNum 2 c.2.1 ++ "/" ++ padNum 2 c.2.2.1

/-- chrono `format("%H:%M")`. -/
def fmtHourMin (ms : ℤ) : String :=
  let c := civilOfMillis ms
  padNum 2 c.2.2.2.1 ++ ":" ++ padNum 2 c.2.2.2.2.1

/-- chrono `format("%H:%M:%S")`. -/
def fmtHourMinSec (ms : ℤ) : String :=
  let c := civilOfMillis ms
  padNum 2 c.2.2.2.1 ++ ":" ++ padNum 2 c.2.2.2.2.1 ++ ":" ++ padNum 2 c.2.2.2.2.2

/-- chrono `format("%Y/%m/%d")`. -/
def fmtYMD (ms : ℤ) : String := fmtYear ms ++ "/" ++ fmtMonthDay ms

/-! ### Time axis (`src/x_axis.rs`) -/

/-- `shorted_now_string` from `src/x_axis.rs`: the most specific field of
`now` that differs from `prev`, at the interval's precision, after shifting
both into the display offset (seconds). -/
def shortedNowString (prev now : ℤ) (prec : Precision) (offsetSec : ℤ) : String :=
  let prev := prev + offsetSec * 1000
  let now := now + offsetSec * 1000
  if fmtYear prev ≠ fmtYear now then
    match prec with
    | .second => fmtYMD now ++ " " ++ fmtHourMinSec now
    | .minute => fmtYMD now ++ " " ++ fmtHourMin now
    | .day => fmtYMD now
  else if fmtMonthDay prev ≠ fmtMonthDay now then
    match prec with
    | .second => fmtMonthDay now ++ " " ++ fmtHourMinSec now
    | .minute => fmtMonthDay now ++ " " ++ fmtHourMin now
    | .day => fmtMonthDay now
  else if fmtHourMinSec prev ≠ fmtHourMinSec now then
    match prec with
    | .second => fmtHourMinSec now
    | .minute => fmtHourMin now
    | .day => fmtMonthDay now
  else ""

/-- `diff_datetime_string` from `src/x_axis.rs`. -/
def diffDatetimeString (prev now : ℤ) : String :=
  if fmtYear prev ≠ fmtYear now then fmtYear now
  else if fmtMonthDay prev ≠ fmtMonthDay now then fmtMonthDay now
  else if fmtHourMin prev ≠ fmtHourMin now then fmtHourMin now
  else if fmtHourMinSec prev ≠ fmtHourMinSec now then fmtHourMinSec now
  else ""

/-- `overwrite_chars` from `src/x_axis.rs`: write `value` into `chars` at
(clamped) index `idx`; refuse if it cannot fit, or (when `overlap` is false)
if it would cover a non-blank character.  Returns the updated row and whether
the write happened. -/
def overwriteChars (chars : List Char) (idx : ℤ) (value : String) (overlap : Bool) :
    List Char × Bool :=
  if chars.length < value.length then (chars, false)
  else
    let idx : ℕ :=
      if idx < 0 then 0
      else if chars.length < idx.toNat + value.length then chars.length - value.length
      else idx.toNat
    if !overlap ∧ ((chars.drop idx).take value.length).any (fun c => c ≠ ' ') then
      (chars, false)
    else
      (chars.take idx ++ value.data ++ chars.drop (idx + value.length), true)

namespace XAxis

/-- The timestamp enumeration of `XAxis::render` (`src/x_axis.rs` lines
111-117): `(min..=max).step_by(interval * 1000)`, i.e. the arithmetic
progression `min, min + step, …` truncated at `max` (assuming `min ≤ max`,
asserted by `XAxis::new`). -/
def fullTimestamps (tmin tmax : ℤ) (interval : Interval) : List ℤ :=
  let step := interval.toSec * 1000
  (List.range ((tmax - tmin) / step).toNat.succ).map (fun (k : ℕ) => tmin + (k : ℤ) * step)

/-- The visible-window truncation of `XAxis::render` (`src/x_axis.rs` lines
118-127): when more timestamps exist than fit in `width` columns, skip all
but the most recent `width`. -/
def keptTimestamps (width : ℕ) (tmin tmax : ℤ) (interval : Interval) : List ℤ :=
  let full := fullTimestamps tmin tmax interval
  if width < full.length then (full.drop (full.length - width)).take width
  else full

/-- The interior-tick loop of `XAxis::render` (`src/x_axis.rs` lines
181-200): for each consecutive timestamp pair whose right element is aligned
to the label gap, try to write its adaptive label (no overlap allowed) and
mark the rule row on success. -/
def interiorTicks (gap : ℤ) :
    List (ℕ × (ℤ × ℤ)) → List Char × List Char → List Char × List Char
  | [], rows => rows
  | (idx, prev, t) :: rest, (rule, labels) =>
    if t % gap ≠ 0 then interiorTicks gap rest (rule, labels)
    else
      let rendered := diffDatetimeString prev t
      let wr := overwriteChars labels ((idx : ℤ) - (rendered.length / 2 : ℕ))
        (" " ++ rendered ++ " ") false
      let rule := if wr.2 then rule.set (idx + 1) '┴' else rule
      interiorTicks gap rest (rule, wr.1)

/-- `XAxis::render` from `src/x_axis.rs`: a rule row and a label row of
`width` characters.  `nowMs` models the wall-clock reading `Utc::now()` that
the single-timestamp arm consults; `offsetSec` is the display timezone
offset. -/
def render (width : ℕ) (tmin tmax : ℤ) (interval : Interval) (isRealtime : Bool)
    (offsetSec : ℤ) (nowMs : ℤ) : List (List Char) :=
  let rule0 := List.replicate width '─'
  let labels0 := List.replicate width ' '
  let timestamps := keptTimestamps width tmin tmax interval
  let n := timestamps.length
  match n with
  | 0 => [rule0, labels0]
  | Nat.succ m =>
    if m = 0 then
      let last := timestamps.getLast?.getD 0
      let rendered := shortedNowString nowMs last interval.render_precision offsetSec
      let rendered := if isRealtime then "*" ++ rendered else rendered
      let wr := overwriteChars labels0 ((n - 1 : ℕ) - (rendered.length / 2 : ℕ) : ℤ)
        rendered true
      let rule := if wr.2 then rule0.set (n - 1) '┴' else rule0
      [rule, wr.1]
    else
      let prev := timestamps.getD (n - 2) 0
      let last := timestamps.getLast?.getD 0
      let rendered := shortedNowString prev last interval.render_precision offsetSec
      let rendered := if isRealtime then "*" ++ rendered else rendered
      let wr := overwriteChars labels0 ((n - 1 : ℕ) - (rendered.length / 2 : ℕ) : ℤ)
        rendered true
      let rule := if wr.2 then rule0.set (n - 1) '┴' else rule0
      let gap := (interval.render_gap : ℤ) * interval.toSec * 1000
      let pairs := (timestamps.zip timestamps.tail).enum
      let rows := interiorTicks gap pairs (rule, wr.1)
      [rows.1, rows.2]

end XAxis

/-! ### Viewport / cursor state machine (`src/candlestick_chart_state.rs`) -/

/-- `CandleStikcChartInfo` from `src/candlestick_chart_state.rs` (the
misspelling is the source's). -/
structure ChartInfo where
  cursor_first_timestamp : ℤ
  cursor_last_timestamp : ℤ
  interval : Interval
  latest_timestamp : ℤ
  need_previous_candles : Bool
deriving DecidableEq, Repr

/-- `CandleStickChartState` from `src/candlestick_chart_state.rs`. -/
structure ChartState where
  info : Option ChartInfo
  cursor_timestamp : Option ℤ
deriving DecidableEq, Repr

/-- `CandleStickChartState::default()`. -/
def ChartState.default : ChartState := ⟨none, none⟩

/-- Rust `i64::clamp(lo, hi)` for `lo ≤ hi` (the source's clamp call; Rust
panics when `lo > hi`, and every theorem using this carries `lo ≤ hi`
through its hypotheses). -/
def clampI (x lo hi : ℤ) : ℤ := max lo (min x hi)

/-- `CandleStickChartState::set_info`: a cursor equal to the live edge
collapses back to `Live` (`None`); any other cursor is re-clamped into the
new `[cursor_first, cursor_last]` window. -/
def ChartState.set_info (s : ChartState) (info : ChartInfo) : ChartState :=
  let cursor := match s.cursor_timestamp with
    | some t =>
      if t = info.latest_timestamp then none
      else some (clampI t info.cursor_first_timestamp info.cursor_last_timestamp)
    | none => none
  ⟨some info, cursor⟩

/-- `CandleStickChartState::try_move_backward`. -/
def ChartState.try_move_backward (s : ChartState) : ChartState :=
  match s.info with
  | none => s
  | some info =>
    let step := info.interval.toSec * 1000
    let cursor := match s.cursor_timestamp with
      | some t => t - step
      | none => info.latest_timestamp - step
    ⟨s.info, some (max cursor info.cursor_first_timestamp)⟩

/-- `CandleStickChartState::try_move_forward`. -/
def ChartState.try_move_forward (s : ChartState) : ChartState :=
  match s.info with
  | none => s
  | some info =>
    let step := info.interval.toSec * 1000
    let cursor := match s.cursor_timestamp with
      | some t => t + step
      | none => info.latest_timestamp + step
    ⟨s.info, some (min cursor info.cursor_last_timestamp)⟩

/-- `CandleStickChartState::is_needed_previous_candles`. -/
def ChartState.is_needed_previous_candles (s : ChartState) : Bool :=
  match s.info with
  | some info => info.need_previous_candles
  | none => false

/-- `CandleStickChartState::reset_cursor`. -/
def ChartState.reset_cursor (s : ChartState) : ChartState :=
  ⟨s.info, none⟩

/-- One caller-driven operation on the viewport state: a cursor move or a
render's `set_info`. -/
inductive StateOp where
  | backward
  | forward
  | setInfo (i : ChartInfo)
deriving DecidableEq, Repr

/-- Apply one operation. -/
def ChartState.apply (s : ChartState) : StateOp → ChartState
  | .backward => s.try_move_backward
  | .forward => s.try_move_forward
  | .setInfo i => s.set_info i

/-- Run a sequence of operations from a starting state. -/
def ChartState.run (s : ChartState) : List StateOp → ChartState
  | [] => s
  | op :: ops => (s.apply op).run ops

/-- The info records the renderer actually writes: the window's first cursor
bound does not come after its last, and the live edge lies between them (the
compositor passes `cursor_last = latest = last candle timestamp` for an
ascending series). -/
def WFInfo (i : ChartInfo) : Prop :=
  i.cursor_first_timestamp ≤ i.latest_timestamp ∧
    i.latest_timestamp ≤ i.cursor_last_timestamp

instance : DecidablePred WFInfo := fun i => by
  unfold WFInfo; infer_instance

/-- The infos supplied by a sequence of operations. -/
def StateOp.infoOf : StateOp → Option ChartInfo
  | .setInfo i => some i
  | _ => none

/-! ### Terminal buffer (the `ratatui::buffer::Buffer` surface the compositor
writes through) -/

/-- `ratatui::style::Color::Rgb`. -/
structure Color where
  r : ℕ
  g : ℕ
  b : ℕ
deriving DecidableEq, Repr

/-- One terminal cell: its symbol and foreground colour (`None` = the
terminal default; the chart writes text with `Style::default()`, which
leaves the colour untouched). -/
structure Cell where
  sym : Char
  fg : Option Color
deriving DecidableEq, Repr

/-- The cell grid, addressed by `(x, y)`. -/
def Buffer := ℕ × ℕ → Cell

/-- A single cell write: set the symbol, and set the foreground only when
`fg` is `some` (text writes pass `Style::default()` and keep the old
foreground; candle writes pass `Style::default().fg(color)`). -/
structure WriteOp where
  x : ℕ
  y : ℕ
  sym : Char
  fg : Option Color
deriving DecidableEq, Repr

/-- Apply one write to the buffer. -/
def applyOp (w : WriteOp) (b : Buffer) : Buffer := fun p =>
  if p = (w.x, w.y) then
    ⟨w.sym, match w.fg with | some c => some c | none => (b p).fg⟩
  else b p

/-- Apply a sequence of writes, left to right. -/
def applyOps (ws : List WriteOp) (b : Buffer) : Buffer :=
  ws.foldl (fun b w => applyOp w b) b

/-- The writes of `Buffer::set_string(x, y, s, Style::default())`:
one symbol per character, truncated at the buffer's right edge `width`. -/
def stringOps (width x y : ℕ) (chars : List Char) : List WriteOp :=
  ((chars.take (width - x)).enum).map (fun ic => ⟨x + ic.1, y, ic.2, none⟩)

/-! ### Chart compositor (`src/candlestick_chart.rs`) -/

/-- Render area; the compositor reads only the width and height of the
`Rect` (writes are addressed from the origin). -/
structure Area where
  width : ℕ
  height : ℕ
deriving DecidableEq, Repr

/-- `CandleStickChart` from `src/candlestick_chart.rs`.  The widget-level
`style` field only feeds the `Styled` trait impl, not `render`, and is
omitted. -/
structure CandleStickChart where
  interval : Interval
  candles : List Candle
  bearish_color : Color
  bullish_color : Color
deriving DecidableEq, Repr

/-- `CandleStickChart::new` with its default colours. -/
def CandleStickChart.mkNew (interval : Interval) : CandleStickChart :=
  ⟨interval, [], ⟨234, 74, 90⟩, ⟨52, 208, 88⟩⟩

/-- Minimum of a list of rationals (`Iterator::min` on `OrderedFloat`; the
compositor only calls it on nonempty lists, where the default is dead). -/
def listMinQ : List ℚ → ℚ
  | [] => 0
  | x :: xs => xs.foldl min x

/-- Maximum of a list of rationals (`Iterator::max`). -/
def listMaxQ : List ℚ → ℚ
  | [] => 0
  | x :: xs => xs.foldl max x

/-- Placeholder candle for the (unreachable) out-of-bounds index defaults
below. -/
def dummyCandle : Candle := ⟨0, 0, 0, 0, 0⟩

/-- The timestamp of the last candle (`candles.last().unwrap()`; the
compositor guards against the empty series first). -/
def chartLatest (cfg : CandleStickChart) : ℤ :=
  (cfg.candles.getLastD dummyCandle).timestamp

/-- The reserved value-axis width (`src/candlestick_chart.rs` lines
269-272): estimated from the global min low / max high with the default
numeric spec. -/
def chartYWidth (cfg : CandleStickChart) : ℕ :=
  YAxis.estimated_width Numeric.default
    (listMinQ (cfg.candles.map (·.low)))
    (listMaxQ (cfg.candles.map (·.high)))

/-- The info record the render pass stores (`src/candlestick_chart.rs` lines
280-290).  This superseded revision constructs the info from
`(first_timestamp_cursor, last timestamp, interval)`; its live edge and the
last cursor bound coincide (both are the last candle's timestamp), and the
current state type's extra fields are populated accordingly
(`need_previous_candles` does not exist in this revision and is `false`). -/
def chartInfoOf (cfg : CandleStickChart) (area : Area) : ChartInfo :=
  let candlesLen := area.width - chartYWidth cfg
  let first :=
    if candlesLen < cfg.candles.length then
      (cfg.candles.getD (candlesLen - 1) dummyCandle).timestamp
    else chartLatest cfg
  ⟨first, chartLatest cfg, cfg.interval, chartLatest cfg, false⟩

/-- The number of leading candles scrolled out of view
(`src/candlestick_chart.rs` lines 292-308), from the post-`set_info`
cursor. -/
def chartSkipped (cfg : CandleStickChart) (area : Area) (cursor : Option ℤ) : ℕ :=
  let candlesLen := area.width - chartYWidth cfg
  match cursor with
  | some ct =>
    let count := cfg.candles.countP (fun c => c.timestamp ≤ ct)
    if candlesLen < count then count - candlesLen else 0
  | none =>
    if candlesLen < cfg.candles.length then cfg.candles.length - candlesLen else 0

/-- All buffer writes of one render pass (`src/candlestick_chart.rs` lines
310-355) given the number of scrolled-out candles, in program order:
value-axis rows, the `└──` corner, the two time-axis rows, then one glyph
column per visible candle.  The time axis of this revision takes no timezone
offset and no realtime flag (they entered with the newer `src/x_axis.rs`);
it is rendered at UTC without the live-marker, `nowMs` being the wall clock
it may consult. -/
def chartOpsFromSkip (cfg : CandleStickChart) (area : Area) (nowMs : ℤ) (skipped : ℕ) :
    List WriteOp :=
  let yw := chartYWidth cfg
  let chartWidth := area.width - yw
  let candlesLen := chartWidth
  let rendered := (cfg.candles.drop skipped).take candlesLen
  let vmin := listMinQ (rendered.map (·.low))
  let vmax := listMaxQ (rendered.map (·.high))
  let ya := YAxis.new Numeric.default Grid.accurate (area.height - 3) vmin vmax
  let yOps := (ya.render.enum).flatMap (fun ys => stringOps area.width 0 ys.1 ys.2.data)
  let cornerOps := stringOps area.width (yw - 2) (area.height - 3) "└──".data
  let tmin := (rendered.headD dummyCandle).timestamp
  let tmax := (rendered.getLastD dummyCandle).timestamp
  let xRows := XAxis.render chartWidth tmin tmax cfg.interval false 0 nowMs
  let xOps := (xRows.enum).flatMap
    (fun yr => stringOps area.width yw (area.height - 3 + yr.1) yr.2)
  let candleOps := (rendered.enum).flatMap (fun xc =>
    let tr := xc.2.render ya
    let color := match tr.1 with
      | .bearish => cfg.bearish_color
      | .bullish => cfg.bullish_color
    (tr.2.enum).map (fun yg => ⟨xc.1 + yw, yg.1, yg.2.toChar, some color⟩))
  yOps ++ cornerOps ++ xOps ++ candleOps

/-- The writes of one render pass from the post-`set_info` cursor. -/
def chartOps (cfg : CandleStickChart) (area : Area) (nowMs : ℤ) (cursor : Option ℤ) :
    List WriteOp :=
  chartOpsFromSkip cfg area nowMs (chartSkipped cfg area cursor)

/-- `CandleStickChart::render` (`StatefulWidget::render`,
`src/candlestick_chart.rs` lines 264-356): no-op on an empty series or an
area not wider than the reserved axis width; otherwise store the new info
(re-clamping the cursor) and emit all writes.  This revision computes the
body height as `area.height - 3` in `u16`: for `area.height < 3` the
subtraction underflows, which panics in debug builds — modelled as `none`. -/
def renderChart (cfg : CandleStickChart) (area : Area) (nowMs : ℤ) (b : Buffer)
    (s : ChartState) : Option (Buffer × ChartState) :=
  if cfg.candles = [] then some (b, s)
  else if area.width ≤ chartYWidth cfg then some (b, s)
  else if area.height < 3 then none
  else
    let s1 := s.set_info (chartInfoOf cfg area)
    some (applyOps (chartOps cfg area nowMs s1.cursor_timestamp) b, s1)

/-- A buffer of blank default cells (`ratatui::buffer::Buffer::empty`). -/
def emptyBuffer : Buffer := fun _ => ⟨' ', none⟩

/-! ## Shared example data -/

/-- The single-candle series of the repository's `simple_candle` test. -/
def exCfg : CandleStickChart :=
  { CandleStickChart.mkNew Interval.oneMinute with
      candles := [⟨0, 0.9, 3, 0, 2.1⟩] }

/-- A render-shaped info record: single fitting candle at timestamp 120000,
one-minute interval. -/
def exInfo : ChartInfo := ⟨0, 120000, .oneMinute, 120000, false⟩

/-! ## Claims -/

/-- **C4.**  For every timestamp and finite prices, `Candle::new` returns
`Some` exactly when `high >= low` and `None` exactly when `high < low`; in
particular `high == low` succeeds. -/
theorem candle_new_iff (t : ℤ) (o h l c : ℚ) :
    ((Candle.new t o h l c).isSome ↔ l ≤ h) ∧
      ((Candle.new t o h l c) = none ↔ h < l) ∧
      (Candle.new t o h h c).isSome := by
  unfold Candle.new
  refine ⟨?_, ?_, by simp⟩
  · split <;> simp_all
  · split <;> simp_all

/-- **C5 (counterexample).**  The claim asserts `calc_y(max) = height` for
every axis built with `min ≤ max` and positive height; it fails when
`min = max`: the unit is `0` and the division degenerates (exact-rational
embedding of the `f64` division, which there yields `NaN ≠ height`). -/
theorem calc_y_max_counterexample :
    (1 : ℚ) ≤ 1 ∧ 0 < 2 ∧
      (YAxis.new Numeric.default Grid.accurate 2 1 1).calc_y 1 ≠ (2 : ℚ) := by
  refine ⟨le_refl _, by norm_num, ?_⟩
  norm_num [YAxis.new, YAxis.calc_y]

/-- **C5 (amended).**  For every value axis built with `min < max` and
positive height: `calc_y(min) = 0`, `calc_y(max) = height`, and `calc_y` is
the linear map `v ↦ (v - min) / unit` with `unit = (max - min) / height`. -/
theorem calc_y_linear (numeric : Numeric) (grid : Grid) (height : ℕ) (mn mx : ℚ)
    (h1 : mn < mx) (h2 : 0 < height) :
    (YAxis.new numeric grid height mn mx).calc_y mn = 0 ∧
      (YAxis.new numeric grid height mn mx).calc_y mx = height ∧
      (YAxis.new numeric grid height mn mx).unit = (mx - mn) / height ∧
      ∀ v, (YAxis.new numeric grid height mn mx).calc_y v =
        (v - mn) / ((YAxis.new numeric grid height mn mx).unit) := by
  have hne : mx - mn ≠ 0 := sub_ne_zero_of_ne (ne_of_gt h1)
  have hh : (height : ℚ) ≠ 0 := by
    exact_mod_cast Nat.pos_iff_ne_zero.mp h2
  refine ⟨?_, ?_, rfl, fun v => rfl⟩
  · simp [YAxis.new, YAxis.calc_y]
  · show (mx - mn) / ((mx - mn) / (height : ℚ)) = (height : ℚ)
    rw [div_div_eq_mul_div, mul_comm, mul_div_assoc, div_self hne, mul_one]

/-- **C5 witness.** -/
theorem calc_y_linear_witness :
    (0 : ℚ) < 3 ∧ 0 < 5 ∧
      ((YAxis.new Numeric.default Grid.accurate 5 0 3).calc_y 0 = 0 ∧
        (YAxis.new Numeric.default Grid.accurate 5 0 3).calc_y 3 = 5 ∧
        (YAxis.new Numeric.default Grid.accurate 5 0 3).unit = (3 - 0) / 5 ∧
        ∀ v, (YAxis.new Numeric.default Grid.accurate 5 0 3).calc_y v =
          (v - 0) / ((YAxis.new Numeric.default Grid.accurate 5 0 3).unit)) :=
  ⟨by norm_num, by norm_num,
    calc_y_linear Numeric.default Grid.accurate 5 0 3 (by norm_num) (by norm_num)⟩

/-- **C7 (counterexample).**  The claim says `try_move_backward` from `Live`
sets the cursor to `latest - interval`; the code additionally clamps at
`cursor_first_timestamp`, so from `Live` with `latest = first = 0` the new
cursor is `0`, not `-60000`. -/
theorem move_backward_counterexample :
    (ChartState.mk (some ⟨0, 0, .oneMinute, 0, false⟩) none).try_move_backward.cursor_timestamp
        = some 0 ∧
      (some (0 : ℤ) ≠ some (0 - Interval.oneMinute.toSec * 1000)) := by
  decide

/-- **C7 (amended).**  With info set: `try_move_backward` from `Live` sets
the cursor to `max(latest - interval, first)`, from `Scrolled(t)` to
`max(t - interval, first)`; a cursor already at the earliest bound is a
fixpoint (repeated backward moves stop decreasing); and `reset_cursor`
unconditionally returns to `Live`. -/
theorem move_backward_clamped (s : ChartState) (i : ChartInfo) (hinfo : s.info = some i) :
    (s.cursor_timestamp = none →
        s.try_move_backward.cursor_timestamp =
          some (max (i.latest_timestamp - i.interval.toSec * 1000) i.cursor_first_timestamp)) ∧
      (∀ t, s.cursor_timestamp = some t →
        s.try_move_backward.cursor_timestamp =
          some (max (t - i.interval.toSec * 1000) i.cursor_first_timestamp)) ∧
      (s.cursor_timestamp = some i.cursor_first_timestamp →
        s.try_move_backward.cursor_timestamp = some i.cursor_first_timestamp) ∧
      (∀ s' : ChartState, s'.reset_cursor.cursor_timestamp = none) := by
  have hstep : 0 < i.interval.toSec * 1000 := by
    have := i.interval.toSec_pos; positivity
  refine ⟨?_, ?_, ?_, fun s' => rfl⟩
  · intro hc
    simp [ChartState.try_move_backward, hinfo, hc]
  · intro t hc
    simp [ChartState.try_move_backward, hinfo, hc]
  · intro hc
    simp only [ChartState.try_move_backward, hinfo, hc]
    have : max (i.cursor_first_timestamp - i.interval.toSec * 1000) i.cursor_first_timestamp =
        i.cursor_first_timestamp := by omega
    simp [this]

/-- **C7 witness.** -/
theorem move_backward_clamped_witness :
    (ChartState.mk (some exInfo) none).info = some exInfo ∧
      ((ChartState.mk (some exInfo) none).cursor_timestamp = none →
        (ChartState.mk (some exInfo) none).try_move_backward.cursor_timestamp =
          some (max (exInfo.latest_timestamp - exInfo.interval.toSec * 1000)
            exInfo.cursor_first_timestamp)) :=
  ⟨rfl, ((move_backward_clamped (ChartState.mk (some exInfo) none) exInfo rfl).1)⟩

/-- **C10.**  With info set, `try_move_forward` from `Live` does not leave
the state `Live`: the cursor becomes
`Some(min(latest + interval, cursor_last))`; and for a set cursor `t`, a
subsequent `set_info` collapses the state back to `Live` exactly when its
`latest_timestamp` equals `t` (a cursor move never clears the cursor). -/
theorem move_forward_from_live (s : ChartState) (i : ChartInfo) (hinfo : s.info = some i) :
    (s.cursor_timestamp = none →
        s.try_move_forward.cursor_timestamp =
          some (min (i.latest_timestamp + i.interval.toSec * 1000) i.cursor_last_timestamp) ∧
        s.try_move_forward.cursor_timestamp ≠ none) ∧
      (∀ (i' : ChartInfo) (t : ℤ), s.cursor_timestamp = some t →
        ((s.set_info i').cursor_timestamp = none ↔ t = i'.latest_timestamp)) ∧
      (∀ t, s.cursor_timestamp = some t →
        s.try_move_backward.cursor_timestamp ≠ none ∧
        s.try_move_forward.cursor_timestamp ≠ none) := by
  refine ⟨?_, ?_, ?_⟩
  · intro hc
    simp [ChartState.try_move_forward, hinfo, hc]
  · intro i' t hc
    simp only [ChartState.set_info, hc]
    split
    · simp_all
    · simp_all
  · intro t hc
    constructor
    · simp [ChartState.try_move_backward, hinfo, hc]
    · simp [ChartState.try_move_forward, hinfo, hc]

/-- **C10 witness.** -/
theorem move_forward_from_live_witness :
    (ChartState.mk (some exInfo) none).info = some exInfo ∧
      ((ChartState.mk (some exInfo) none).cursor_timestamp = none →
        (ChartState.mk (some exInfo) none).try_move_forward.cursor_timestamp =
          some (min (exInfo.latest_timestamp + exInfo.interval.toSec * 1000)
            exInfo.cursor_last_timestamp) ∧
        (ChartState.mk (some exInfo) none).try_move_forward.cursor_timestamp ≠ none) :=
  ⟨rfl, (move_forward_from_live (ChartState.mk (some exInfo) none) exInfo rfl).1⟩

/-- **C8.**  Under the Accurate grid strategy, `YAxis::render` produces
exactly `height` strings, top row first; the row at depth `i` from the top
carries the tick label for the value `max - i * unit` exactly when `i` is a
multiple of 4, and every other row carries blank padding of the endpoint
label width. -/
theorem yaxis_render_accurate (numeric : Numeric) (height : ℕ) (mn mx : ℚ)
    (_h1 : mn ≤ mx) (_h2 : 0 < height) :
    (YAxis.new numeric Grid.accurate height mn mx).render.length = height ∧
      ∀ i (hi : i < (YAxis.new numeric Grid.accurate height mn mx).render.length),
        (YAxis.new numeric Grid.accurate height mn mx).render.get ⟨i, hi⟩ =
          if (i % 4 : ℕ) = 0 then
            " " ++ numeric.format (mx - (YAxis.new numeric Grid.accurate height mn mx).unit * i)
              ++ " ├ "
          else
            " " ++ String.mk (List.replicate
              (Nat.max (numeric.format mx).length (numeric.format mn).length) ' ') ++ " │ " := by
  constructor
  · simp [YAxis.render, YAxis.new]
  · intro i hi
    simp [YAxis.render, YAxis.new]

/-- **C8 witness.** -/
theorem yaxis_render_accurate_witness :
    (0 : ℚ) ≤ 3 ∧ 0 < 5 ∧
      ((YAxis.new Numeric.default Grid.accurate 5 0 3).render.length = 5 ∧
        ∀ i (hi : i < (YAxis.new Numeric.default Grid.accurate 5 0 3).render.length),
          (YAxis.new Numeric.default Grid.accurate 5 0 3).render.get ⟨i, hi⟩ =
            if (i % 4 : ℕ) = 0 then
              " " ++ Numeric.default.format
                (3 - (YAxis.new Numeric.default Grid.accurate 5 0 3).unit * i) ++ " ├ "
            else
              " " ++ String.mk (List.replicate
                (Nat.max (Numeric.default.format 3).length
                  (Numeric.default.format 0).length) ' ') ++ " │ ") := by
  refine ⟨by norm_num, by norm_num, ?_⟩
  have h := yaxis_render_accurate Numeric.default 5 0 3 (by norm_num) (by norm_num)
  exact ⟨h.1, h.2⟩

/-- **C9.**  The time axis enumerates exactly the interval-stepped
timestamps `min, min + step, …` of `[min, max]`; when more of them exist
than fit in `width` columns, exactly the most recent `width` are kept: the
kept list is the suffix of the full enumeration of length `width`, ending at
the same latest timestamp. -/
theorem xaxis_window (width : ℕ) (tmin tmax : ℤ) (interval : Interval)
    (hle : tmin ≤ tmax) :
    (∀ i (hi : i < (XAxis.fullTimestamps tmin tmax interval).length),
        (XAxis.fullTimestamps tmin tmax interval).get ⟨i, hi⟩ =
          tmin + i * (interval.toSec * 1000)) ∧
      (∀ t ∈ XAxis.fullTimestamps tmin tmax interval, tmin ≤ t ∧ t ≤ tmax) ∧
      (∀ k : ℕ, tmin + k * (interval.toSec * 1000) ≤ tmax →
        tmin + k * (interval.toSec * 1000) ∈ XAxis.fullTimestamps tmin tmax interval) ∧
      ((XAxis.fullTimestamps tmin tmax interval).length ≤ width →
        XAxis.keptTimestamps width tmin tmax interval = XAxis.fullTimestamps tmin tmax interval) ∧
      (width < (XAxis.fullTimestamps tmin tmax interval).length →
        XAxis.keptTimestamps width tmin tmax interval =
            (XAxis.fullTimestamps tmin tmax interval).drop
              ((XAxis.fullTimestamps tmin tmax interval).length - width) ∧
          (XAxis.keptTimestamps width tmin tmax interval).length = width ∧
          (XAxis.keptTimestamps width tmin tmax interval) <:+
            XAxis.fullTimestamps tmin tmax interval ∧
          (0 < width →
            (XAxis.keptTimestamps width tmin tmax interval).getLast? =
              (XAxis.fullTimestamps tmin tmax interval).getLast?)) := by
  have hstep : 0 < interval.toSec * 1000 := by
    have := interval.toSec_pos; positivity
  have h0 : (0 : ℤ) ≤ (tmax - tmin) / (interval.toSec * 1000) :=
    Int.ediv_nonneg (by omega) (le_of_lt hstep)
  have hlen : (XAxis.fullTimestamps tmin tmax interval).length =
      ((tmax - tmin) / (interval.toSec * 1000)).toNat + 1 := by
    unfold XAxis.fullTimestamps
    rw [List.length_map, List.length_range]
  have hget : ∀ i (hi : i < (XAxis.fullTimestamps tmin tmax interval).length),
      (XAxis.fullTimestamps tmin tmax interval).get ⟨i, hi⟩ =
        tmin + i * (interval.toSec * 1000) := by
    intro i hi
    unfold XAxis.fullTimestamps
    rw [List.get_eq_getElem]
    simp only [XAxis.fullTimestamps] at hi
    rw [List.getElem_map, List.getElem_range]
  refine ⟨hget, ?_, ?_, ?_, ?_⟩
  · intro t ht
    unfold XAxis.fullTimestamps at ht
    rw [List.mem_map] at ht
    obtain ⟨k, hk, rfl⟩ := ht
    rw [List.mem_range] at hk
    have hknn : (0 : ℤ) ≤ (k : ℤ) * (interval.toSec * 1000) :=
      mul_nonneg (Int.natCast_nonneg k) (le_of_lt hstep)
    refine ⟨by omega, ?_⟩
    have hk' : (k : ℤ) ≤ (tmax - tmin) / (interval.toSec * 1000) := by
      have h1 : (k : ℤ) ≤ ((tmax - tmin) / (interval.toSec * 1000)).toNat := by
        exact_mod_cast Nat.lt_succ_iff.mp hk
      omega
    have hkk : (k : ℤ) * (interval.toSec * 1000) ≤
        ((tmax - tmin) / (interval.toSec * 1000)) * (interval.toSec * 1000) :=
      mul_le_mul_of_nonneg_right hk' (le_of_lt hstep)
    have hdm := Int.ediv_mul_le (tmax - tmin) (ne_of_gt hstep)
    omega
  · intro k hk
    unfold XAxis.fullTimestamps
    rw [List.mem_map]
    refine ⟨k, ?_, rfl⟩
    rw [List.mem_range]
    have hk' : (k : ℤ) * (interval.toSec * 1000) ≤ tmax - tmin := by linarith
    have h1 : (k : ℤ) ≤ (tmax - tmin) / (interval.toSec * 1000) :=
      (Int.le_ediv_iff_mul_le hstep).mpr hk'
    have h2 : (((tmax - tmin) / (interval.toSec * 1000)).toNat : ℤ) =
        (tmax - tmin) / (interval.toSec * 1000) := Int.toNat_of_nonneg h0
    have h3 : k ≤ ((tmax - tmin) / (interval.toSec * 1000)).toNat := by
      exact_mod_cast h2 ▸ h1
    exact Nat.lt_succ_of_le h3
  · intro hw
    unfold XAxis.keptTimestamps
    rw [if_neg (Nat.not_lt.mpr hw)]
  · intro hw
    have hdroplen : ((XAxis.fullTimestamps tmin tmax interval).drop
        ((XAxis.fullTimestamps tmin tmax interval).length - width)).length = width := by
      rw [List.length_drop]; omega
    have hkept : XAxis.keptTimestamps width tmin tmax interval =
        (XAxis.fullTimestamps tmin tmax interval).drop
          ((XAxis.fullTimestamps tmin tmax interval).length - width) := by
      unfold XAxis.keptTimestamps
      rw [if_pos hw]
      exact List.take_of_length_le (le_of_eq hdroplen)
    refine ⟨hkept, by rw [hkept, hdroplen], by rw [hkept]; exact List.drop_suffix _ _, ?_⟩
    intro hwpos
    rw [hkept, List.getLast?_eq_getElem?, List.getLast?_eq_getElem?, hdroplen,
      List.getElem?_drop]
    have hidx : (XAxis.fullTimestamps tmin tmax interval).length - width + (width - 1) =
        (XAxis.fullTimestamps tmin tmax interval).length - 1 := by
      clear hlen h0 hget hkept hdroplen
      generalize (XAxis.fullTimestamps tmin tmax interval).length = L at hw
      omega
    rw [hidx]

/-- **C9 witness.** -/
theorem xaxis_window_witness :
    (0 : ℤ) ≤ 240000 ∧
      ((∀ i (hi : i < (XAxis.fullTimestamps 0 240000 .oneMinute).length),
          (XAxis.fullTimestamps 0 240000 .oneMinute).get ⟨i, hi⟩ =
            0 + i * (Interval.oneMinute.toSec * 1000)) ∧
        (∀ t ∈ XAxis.fullTimestamps 0 240000 .oneMinute, (0 : ℤ) ≤ t ∧ t ≤ 240000) ∧
        (∀ k : ℕ, (0 : ℤ) + k * (Interval.oneMinute.toSec * 1000) ≤ 240000 →
          (0 : ℤ) + k * (Interval.oneMinute.toSec * 1000) ∈
            XAxis.fullTimestamps 0 240000 .oneMinute) ∧
        ((XAxis.fullTimestamps 0 240000 .oneMinute).length ≤ 3 →
          XAxis.keptTimestamps 3 0 240000 .oneMinute =
            XAxis.fullTimestamps 0 240000 .oneMinute) ∧
        (3 < (XAxis.fullTimestamps 0 240000 .oneMinute).length →
          XAxis.keptTimestamps 3 0 240000 .oneMinute =
              (XAxis.fullTimestamps 0 240000 .oneMinute).drop
                ((XAxis.fullTimestamps 0 240000 .oneMinute).length - 3) ∧
            (XAxis.keptTimestamps 3 0 240000 .oneMinute).length = 3 ∧
            (XAxis.keptTimestamps 3 0 240000 .oneMinute) <:+
              XAxis.fullTimestamps 0 240000 .oneMinute ∧
            (0 < 3 →
              (XAxis.keptTimestamps 3 0 240000 .oneMinute).getLast? =
                (XAxis.fullTimestamps 0 240000 .oneMinute).getLast?))) :=
  ⟨by decide, xaxis_window 3 0 240000 .oneMinute (by decide)⟩

/-! ### C3: the cursor clamp invariant -/

/-- The invariant carried through every operation: any stored info is
render-shaped, and a set cursor lies inside the stored info's cursor
window. -/
def CursorInv (s : ChartState) : Prop :=
  (∀ i, s.info = some i → WFInfo i) ∧
    (∀ t, s.cursor_timestamp = some t →
      ∃ i, s.info = some i ∧ i.cursor_first_timestamp ≤ t ∧ t ≤ i.cursor_last_timestamp)

theorem cursorInv_default : CursorInv ChartState.default :=
  ⟨fun i h => by simp [ChartState.default] at h, fun t h => by simp [ChartState.default] at h⟩

theorem cursorInv_apply (s : ChartState) (op : StateOp) (hs : CursorInv s)
    (hop : ∀ i, op.infoOf = some i → WFInfo i) : CursorInv (s.apply op) := by
  obtain ⟨hwf, hcur⟩ := hs
  cases op with
  | backward =>
    show CursorInv s.try_move_backward
    unfold ChartState.try_move_backward
    cases hinfo : s.info with
    | none => exact ⟨hwf, hcur⟩
    | some i =>
      obtain ⟨h1, h2⟩ := hwf i hinfo
      have hstep : 0 < i.interval.toSec * 1000 := by
        have := i.interval.toSec_pos; positivity
      cases hc : s.cursor_timestamp with
      | none =>
        refine ⟨fun j hj => (Option.some.inj hj) ▸ hwf i hinfo, ?_⟩
        intro t ht
        have hteq := Option.some.inj ht
        subst hteq
        refine ⟨i, rfl, le_max_right _ _, max_le ?_ ?_⟩
        · show i.latest_timestamp - i.interval.toSec * 1000 ≤ i.cursor_last_timestamp
          omega
        · omega
      | some t0 =>
        obtain ⟨j, hji, hj1, hj2⟩ := hcur t0 hc
        rw [hinfo] at hji
        injection hji with hji
        subst hji
        refine ⟨fun j hj => (Option.some.inj hj) ▸ hwf i hinfo, ?_⟩
        intro t ht
        have hteq := Option.some.inj ht
        subst hteq
        refine ⟨i, rfl, le_max_right _ _, max_le ?_ ?_⟩
        · show t0 - i.interval.toSec * 1000 ≤ i.cursor_last_timestamp
          omega
        · omega
  | forward =>
    show CursorInv s.try_move_forward
    unfold ChartState.try_move_forward
    cases hinfo : s.info with
    | none => exact ⟨hwf, hcur⟩
    | some i =>
      obtain ⟨h1, h2⟩ := hwf i hinfo
      have hstep : 0 < i.interval.toSec * 1000 := by
        have := i.interval.toSec_pos; positivity
      cases hc : s.cursor_timestamp with
      | none =>
        refine ⟨fun j hj => (Option.some.inj hj) ▸ hwf i hinfo, ?_⟩
        intro t ht
        have hteq := Option.some.inj ht
        subst hteq
        refine ⟨i, rfl, le_min ?_ ?_, min_le_right _ _⟩
        · show i.cursor_first_timestamp ≤ i.latest_timestamp + i.interval.toSec * 1000
          omega
        · omega
      | some t0 =>
        obtain ⟨j, hji, hj1, hj2⟩ := hcur t0 hc
        rw [hinfo] at hji
        injection hji with hji
        subst hji
        refine ⟨fun j hj => (Option.some.inj hj) ▸ hwf i hinfo, ?_⟩
        intro t ht
        have hteq := Option.some.inj ht
        subst hteq
        refine ⟨i, rfl, le_min ?_ ?_, min_le_right _ _⟩
        · show i.cursor_first_timestamp ≤ t0 + i.interval.toSec * 1000
          omega
        · omega
  | setInfo i =>
    obtain ⟨h1, h2⟩ := hop i rfl
    show CursorInv (s.set_info i)
    unfold ChartState.set_info
    cases hc : s.cursor_timestamp with
    | none =>
      exact ⟨fun j hj => Option.some.inj hj ▸ hop i rfl, fun t ht => (Option.noConfusion ht)⟩
    | some t0 =>
      show CursorInv ⟨some i, if t0 = i.latest_timestamp then none
        else some (clampI t0 i.cursor_first_timestamp i.cursor_last_timestamp)⟩
      by_cases he : t0 = i.latest_timestamp
      · rw [if_pos he]
        exact ⟨fun j hj => Option.some.inj hj ▸ hop i rfl, fun t ht => (Option.noConfusion ht)⟩
      · rw [if_neg he]
        refine ⟨fun j hj => Option.some.inj hj ▸ hop i rfl, ?_⟩
        intro t ht
        have hteq := Option.some.inj ht
        subst hteq
        unfold clampI
        refine ⟨i, rfl, le_max_left _ _, max_le (by omega) (min_le_right _ _)⟩

theorem cursorInv_run (ops : List StateOp) (s : ChartState) (hs : CursorInv s)
    (hops : ∀ op ∈ ops, ∀ i, StateOp.infoOf op = some i → WFInfo i) :
    CursorInv (s.run ops) := by
  induction ops generalizing s with
  | nil => exact hs
  | cons op rest ih =>
    exact ih (s.apply op)
      (cursorInv_apply s op hs (hops op (List.mem_cons_self op rest)))
      (fun o ho => hops o (List.mem_cons_of_mem op ho))

/-- **C3.**  After any sequence of `try_move_backward` / `try_move_forward`
calls interleaved with `set_info` calls whose infos are render-shaped
(`first ≤ latest ≤ last`, as every render writes), a set `cursor_timestamp`
always lies within the `[cursor_first_timestamp, cursor_last_timestamp]`
window of the most recently stored info. -/
theorem cursor_clamp_invariant (ops : List StateOp)
    (hops : ∀ op ∈ ops, ∀ i, StateOp.infoOf op = some i → WFInfo i)
    (t : ℤ) (ht : (ChartState.default.run ops).cursor_timestamp = some t) :
    ∃ i, (ChartState.default.run ops).info = some i ∧
      i.cursor_first_timestamp ≤ t ∧ t ≤ i.cursor_last_timestamp :=
  (cursorInv_run ops ChartState.default cursorInv_default hops).2 t ht

/-- **C3 witness**: render of a fitting window at 120000, then two backward
moves and one forward; the cursor stays at clamped positions. -/
theorem cursor_clamp_invariant_witness :
    (∀ op ∈ [StateOp.setInfo exInfo, StateOp.backward, StateOp.backward, StateOp.forward],
        ∀ i, StateOp.infoOf op = some i → WFInfo i) ∧
      (ChartState.default.run
        [StateOp.setInfo exInfo, StateOp.backward, StateOp.backward,
          StateOp.forward]).cursor_timestamp = some 60000 ∧
      ∃ i, (ChartState.default.run
          [StateOp.setInfo exInfo, StateOp.backward, StateOp.backward,
            StateOp.forward]).info = some i ∧
        i.cursor_first_timestamp ≤ 60000 ∧ 60000 ≤ i.cursor_last_timestamp :=
  ⟨by decide, by decide,
    cursor_clamp_invariant
      [StateOp.setInfo exInfo, StateOp.backward, StateOp.backward, StateOp.forward]
      (by decide) 60000 (by decide)⟩

/-! ### C1: glyph-column contiguity -/

/-- The rows of a candle column that receive ink (a non-void glyph),
mirroring the three-region branch structure of `candleCell`: the upper
region is inked down to `⌊hi⌋`, the body region and the lower region are
always inked where entered. -/
def inkAt (hi mx mn lo : ℚ) (y : ℤ) : Prop :=
  (⌊mx⌋ ≤ y ∧ y ≤ ⌈hi⌉ ∧ y ≤ ⌊hi⌋) ∨
    (¬(⌊mx⌋ ≤ y ∧ y ≤ ⌈hi⌉) ∧ ⌈mn⌉ ≤ y ∧ y ≤ ⌊mx⌋) ∨
    (¬(⌊mx⌋ ≤ y ∧ y ≤ ⌈hi⌉) ∧ ¬(⌈mn⌉ ≤ y ∧ y ≤ ⌊mx⌋) ∧ ⌊lo⌋ ≤ y ∧ y ≤ ⌈mn⌉)

/-- A cell is void exactly when its row is outside the ink region —
independently of the threaded `is_body` flag, which only selects among
non-void glyphs. -/
theorem candleCell_void_iff (hi mx mn lo : ℚ) (y : ℤ) (b : Bool) :
    (candleCell hi mx mn lo y b).1 = Glyph.void ↔ ¬ inkAt hi mx mn lo y := by
  unfold candleCell inkAt
  by_cases h1 : (((⌈hi⌉ : ℤ) : ℚ) ≥ (y : ℚ)) ∧ ((y : ℚ) ≥ ((⌊mx⌋ : ℤ) : ℚ))
  · rw [if_pos h1]
    obtain ⟨hA1, hA2⟩ := h1
    by_cases h2 : hi - (y : ℚ) > 1/2
    · rw [if_pos h2]
      refine iff_of_false ?_ (not_not.mpr (Or.inl ⟨?_, ?_, ?_⟩))
      · split_ifs <;> simp
      · exact_mod_cast hA2
      · exact_mod_cast hA1
      · exact Int.le_floor.mpr (by linarith)
    · rw [if_neg h2]
      by_cases h6 : hi - (y : ℚ) ≥ 0
      · rw [if_pos h6]
        refine iff_of_false ?_ (not_not.mpr (Or.inl ⟨?_, ?_, ?_⟩))
        · split_ifs <;> simp
        · exact_mod_cast hA2
        · exact_mod_cast hA1
        · exact Int.le_floor.mpr (by linarith)
      · rw [if_neg h6]
        refine iff_of_true rfl ?_
        rintro (⟨_, _, u3⟩ | ⟨nh, _, _⟩ | ⟨nh, _, _, _⟩)
        · have : (y : ℚ) ≤ hi := Int.le_floor.mp u3
          linarith
        · exact nh ⟨by exact_mod_cast hA2, by exact_mod_cast hA1⟩
        · exact nh ⟨by exact_mod_cast hA2, by exact_mod_cast hA1⟩
  · rw [if_neg h1]
    by_cases h8 : (((⌊mx⌋ : ℤ) : ℚ) ≥ (y : ℚ)) ∧ ((y : ℚ) ≥ ((⌈mn⌉ : ℤ) : ℚ))
    · rw [if_pos h8]
      refine iff_of_false (by simp) (not_not.mpr (Or.inr (Or.inl ⟨?_, ?_, ?_⟩)))
      · intro hAz
        exact h1 ⟨by exact_mod_cast hAz.2, by exact_mod_cast hAz.1⟩
      · exact_mod_cast h8.2
      · exact_mod_cast h8.1
    · rw [if_neg h8]
      by_cases h9 : (((⌈mn⌉ : ℤ) : ℚ) ≥ (y : ℚ)) ∧ ((y : ℚ) ≥ ((⌊lo⌋ : ℤ) : ℚ))
      · rw [if_pos h9]
        by_cases h10 : lo - (y : ℚ) < 1/2
        · rw [if_pos h10]
          refine iff_of_false ?_ (not_not.mpr (Or.inr (Or.inr ⟨?_, ?_, ?_, ?_⟩)))
          · split_ifs <;> simp
          · intro hAz
            exact h1 ⟨by exact_mod_cast hAz.2, by exact_mod_cast hAz.1⟩
          · intro hBz
            exact h8 ⟨by exact_mod_cast hBz.2, by exact_mod_cast hBz.1⟩
          · exact_mod_cast h9.2
          · exact_mod_cast h9.1
        · rw [if_neg h10]
          by_cases h14 : lo - (y : ℚ) ≤ 1
          · rw [if_pos h14]
            refine iff_of_false ?_ (not_not.mpr (Or.inr (Or.inr ⟨?_, ?_, ?_, ?_⟩)))
            · split_ifs <;> simp
            · intro hAz
              exact h1 ⟨by exact_mod_cast hAz.2, by exact_mod_cast hAz.1⟩
            · intro hBz
              exact h8 ⟨by exact_mod_cast hBz.2, by exact_mod_cast hBz.1⟩
            · exact_mod_cast h9.2
            · exact_mod_cast h9.1
          · have hfl : lo - 1 < ((⌊lo⌋ : ℤ) : ℚ) := Int.sub_one_lt_floor lo
            exact absurd (show lo - (y : ℚ) ≤ 1 by
              have := h9.2; linarith) h14
      · rw [if_neg h9]
        refine iff_of_true rfl ?_
        rintro (⟨u1, u2, _⟩ | ⟨_, b1, b2⟩ | ⟨_, _, c1, c2⟩)
        · exact h1 ⟨by exact_mod_cast u2, by exact_mod_cast u1⟩
        · exact h8 ⟨by exact_mod_cast b2, by exact_mod_cast b1⟩
        · exact h9 ⟨by exact_mod_cast c2, by exact_mod_cast c1⟩

/-- When the candle satisfies the renderer's debug-asserted ordering
`lo ≤ mn ≤ mx ≤ hi` (in row coordinates), the ink region is an interval of
rows: its three chained sub-intervals share endpoints. -/
theorem inkAt_convex (hi mx mn lo : ℚ) (hml : lo ≤ mn) (hmm : mn ≤ mx) (hmh : mx ≤ hi)
    (y1 y2 y3 : ℤ) (k1 : inkAt hi mx mn lo y1) (k3 : inkAt hi mx mn lo y3)
    (h12 : y1 ≤ y2) (h23 : y2 ≤ y3) : inkAt hi mx mn lo y2 := by
  have f1 : ⌊lo⌋ ≤ ⌈mn⌉ := le_trans (Int.floor_le_floor hml) (Int.floor_le_ceil mn)
  have f2 : ⌈mn⌉ ≤ ⌊mx⌋ + 1 := le_trans (Int.ceil_le_ceil hmm) (Int.ceil_le_floor_add_one mx)
  have f3 : ⌊mx⌋ ≤ ⌊hi⌋ := Int.floor_le_floor hmh
  have f4 : ⌊hi⌋ ≤ ⌈hi⌉ := Int.floor_le_ceil hi
  have f5 : ⌈hi⌉ ≤ ⌊hi⌋ + 1 := Int.ceil_le_floor_add_one hi
  unfold inkAt at *
  omega

theorem candleRows_length (hi mx mn lo : ℚ) (ys : List ℤ) (b : Bool) :
    (candleRows hi mx mn lo ys b).length = ys.length := by
  induction ys generalizing b with
  | nil => rfl
  | cons y ys ih => simpa [candleRows] using ih _

/-- Each entry of the rendered column is the cell of the corresponding row
under some value of the threaded `is_body` flag. -/
theorem candleRows_getD (hi mx mn lo : ℚ) (ys : List ℤ) (b : Bool) (i : ℕ)
    (h : i < ys.length) :
    ∃ b', (candleRows hi mx mn lo ys b).getD i Glyph.void =
      (candleCell hi mx mn lo (ys.getD i 0) b').1 := by
  induction ys generalizing b i with
  | nil => simp at h
  | cons y ys ih =>
    cases i with
    | zero => exact ⟨b, rfl⟩
    | succ i => exact ih _ i (by simpa using h)

theorem candleRows_getD_oob (hi mx mn lo : ℚ) (ys : List ℤ) (b : Bool) (i : ℕ)
    (h : ys.length ≤ i) :
    (candleRows hi mx mn lo ys b).getD i Glyph.void = Glyph.void := by
  apply List.getD_eq_default
  rw [candleRows_length]
  exact h

/-- Row list index arithmetic: the column is rendered top-down, entry `i`
being the row `height - 1 - i`. -/
theorem rowsTopDown_length (height : ℕ) : (rowsTopDown height).length = height := by
  simp [rowsTopDown]

theorem rowsTopDown_getD (height : ℕ) (i : ℕ) (h : i < height) :
    (rowsTopDown height).getD i 0 = ((height - 1 - i : ℕ) : ℤ) := by
  have hlen : i < (rowsTopDown height).length := by rw [rowsTopDown_length]; exact h
  rw [List.getD_eq_getElem _ _ hlen]
  unfold rowsTopDown
  rw [List.getElem_map, List.getElem_reverse, List.getElem_range]
  congr 1
  rw [List.length_range]

/-- No void glyph sits strictly between two non-void glyphs (out-of-range
indices read as void, so the quantifier needs no bound proofs). -/
def noVoidGap (col : List Glyph) : Prop :=
  ∀ i j k : ℕ, i < j → j < k →
    col.getD i Glyph.void ≠ Glyph.void → col.getD k Glyph.void ≠ Glyph.void →
    col.getD j Glyph.void ≠ Glyph.void

/-- **C1 (amended).**  For every candle with `high > low` whose open and
close lie within `[low, high]` (the ordering `debug_assert`ed by the
renderer itself), rendered against a value axis of positive height whose
`[min, max]` range contains `[low, high]`, the glyph column of
`Candle::render` contains no void glyph strictly between two non-void
glyphs. -/
theorem candle_render_contiguous (c : Candle) (numeric : Numeric) (grid : Grid)
    (height : ℕ) (amin amax : ℚ)
    (hlh : c.low < c.high) (hh : 0 < height)
    (hml : amin ≤ c.low) (hhm : c.high ≤ amax)
    (ho1 : c.low ≤ c.open_) (ho2 : c.open_ ≤ c.high)
    (hc1 : c.low ≤ c.close) (hc2 : c.close ≤ c.high) :
    noVoidGap (c.render (YAxis.new numeric grid height amin amax)).2 := by
  have hunit : 0 < (YAxis.new numeric grid height amin amax).unit := by
    have h1 : amin < amax := lt_of_le_of_lt hml (lt_of_lt_of_le hlh hhm)
    have h2 : (0 : ℚ) < height := by exact_mod_cast hh
    exact div_pos (by linarith) h2
  have hmono : ∀ v w : ℚ, v ≤ w →
      (YAxis.new numeric grid height amin amax).calc_y v ≤
        (YAxis.new numeric grid height amin amax).calc_y w := by
    intro v w hvw
    unfold YAxis.calc_y
    exact (div_le_div_iff_of_pos_right hunit).mpr (by linarith)
  have hcol : (c.render (YAxis.new numeric grid height amin amax)).2 =
      candleRows ((YAxis.new numeric grid height amin amax).calc_y c.high)
        (max ((YAxis.new numeric grid height amin amax).calc_y c.open_)
          ((YAxis.new numeric grid height amin amax).calc_y c.close))
        (min ((YAxis.new numeric grid height amin amax).calc_y c.open_)
          ((YAxis.new numeric grid height amin amax).calc_y c.close))
        ((YAxis.new numeric grid height amin amax).calc_y c.low)
        (rowsTopDown height) false := rfl
  have hord1 : (YAxis.new numeric grid height amin amax).calc_y c.low ≤
      min ((YAxis.new numeric grid height amin amax).calc_y c.open_)
        ((YAxis.new numeric grid height amin amax).calc_y c.close) :=
    le_min (hmono _ _ ho1) (hmono _ _ hc1)
  have hord2 : min ((YAxis.new numeric grid height amin amax).calc_y c.open_)
        ((YAxis.new numeric grid height amin amax).calc_y c.close) ≤
      max ((YAxis.new numeric grid height amin amax).calc_y c.open_)
        ((YAxis.new numeric grid height amin amax).calc_y c.close) := min_le_max
  have hord3 : max ((YAxis.new numeric grid height amin amax).calc_y c.open_)
        ((YAxis.new numeric grid height amin amax).calc_y c.close) ≤
      (YAxis.new numeric grid height amin amax).calc_y c.high :=
    max_le (hmono _ _ ho2) (hmono _ _ hc2)
  intro i j k hij hjk hnvi hnvk
  rw [hcol] at hnvi hnvk ⊢
  have hk : k < height := by
    by_contra hk
    exact hnvk (candleRows_getD_oob _ _ _ _ _ _ _
      (by rw [rowsTopDown_length]; omega))
  have hj : j < height := lt_trans hjk hk
  have hi : i < height := lt_trans hij hj
  obtain ⟨bi, ei⟩ := candleRows_getD _ _ _ _ (rowsTopDown height) false i
    (by rw [rowsTopDown_length]; exact hi)
  obtain ⟨bj, ej⟩ := candleRows_getD _ _ _ _ (rowsTopDown height) false j
    (by rw [rowsTopDown_length]; exact hj)
  obtain ⟨bk, ek⟩ := candleRows_getD _ _ _ _ (rowsTopDown height) false k
    (by rw [rowsTopDown_length]; exact hk)
  rw [ei, rowsTopDown_getD height i hi] at hnvi
  rw [ek, rowsTopDown_getD height k hk] at hnvk
  rw [ej, rowsTopDown_getD height j hj]
  have inki := not_not.mp (fun hn => hnvi ((candleCell_void_iff _ _ _ _ _ _).mpr hn))
  have inkk := not_not.mp (fun hn => hnvk ((candleCell_void_iff _ _ _ _ _ _).mpr hn))
  have hord12 : ((height - 1 - k : ℕ) : ℤ) ≤ ((height - 1 - j : ℕ) : ℤ) := by
    have h : (height - 1 - k : ℕ) ≤ (height - 1 - j : ℕ) := by omega
    exact_mod_cast h
  have hord23 : ((height - 1 - j : ℕ) : ℤ) ≤ ((height - 1 - i : ℕ) : ℤ) := by
    have h : (height - 1 - j : ℕ) ≤ (height - 1 - i : ℕ) := by omega
    exact_mod_cast h
  have inkj := inkAt_convex _ _ _ _ hord1 hord2 hord3 _ _ _ inkk inki hord12 hord23
  intro hvj
  exact ((candleCell_void_iff _ _ _ _ _ _).mp hvj) inkj

/-- **C1 witness**: the `simple_candle` test data. -/
theorem candle_render_contiguous_witness :
    ((0 : ℚ) < 3 ∧ 0 < 5 ∧ (0 : ℚ) ≤ 0 ∧ (3 : ℚ) ≤ 3 ∧
        (0 : ℚ) ≤ 0.9 ∧ (0.9 : ℚ) ≤ 3 ∧ (0 : ℚ) ≤ 2.1 ∧ (2.1 : ℚ) ≤ 3) ∧
      noVoidGap ((Candle.mk 0 0.9 3 0 2.1).render
        (YAxis.new Numeric.default Grid.accurate 5 0 3)).2 :=
  ⟨by norm_num,
    candle_render_contiguous ⟨0, 0.9, 3, 0, 2.1⟩ Numeric.default Grid.accurate 5 0 3
      (by norm_num) (by norm_num) (by norm_num) (by norm_num)
      (by norm_num) (by norm_num) (by norm_num) (by norm_num)⟩

/-- **C1 (counterexample).**  The claim as frozen quantifies over every
candle with `high > low` (without constraining open and close, which
`Candle::new` does not validate).  The candle
`(open 5.5, high 4.5, low 0, close 5.2)` — accepted by `Candle::new` since
`4.5 ≥ 0` — on a 10-row axis over `[0, 10]` renders a wick at depth 3, a
void at depth 4 and a wick at depth 5: a void strictly between two non-void
glyphs (in a debug build the renderer's `debug_assert!(high_max_diff >= 0.)`
fires on this input). -/
theorem candle_render_gap_counterexample :
    ((0 : ℚ) < 4.5 ∧ 0 < 10 ∧ (0 : ℚ) ≤ 0 ∧ (4.5 : ℚ) ≤ 10) ∧
      ((Candle.mk 0 5.5 4.5 0 5.2).render
          (YAxis.new Numeric.default Grid.accurate 10 0 10)).2.getD 3 Glyph.void =
        Glyph.wick ∧
      ((Candle.mk 0 5.5 4.5 0 5.2).render
          (YAxis.new Numeric.default Grid.accurate 10 0 10)).2.getD 4 Glyph.void =
        Glyph.void ∧
      ((Candle.mk 0 5.5 4.5 0 5.2).render
          (YAxis.new Numeric.default Grid.accurate 10 0 10)).2.getD 5 Glyph.void =
        Glyph.wick ∧
      ¬ noVoidGap ((Candle.mk 0 5.5 4.5 0 5.2).render
          (YAxis.new Numeric.default Grid.accurate 10 0 10)).2 := by
  have e3 : ((Candle.mk 0 5.5 4.5 0 5.2).render
      (YAxis.new Numeric.default Grid.accurate 10 0 10)).2.getD 3 Glyph.void =
        Glyph.wick := of_decide_eq_true (by with_unfolding_all rfl)
  have e4 : ((Candle.mk 0 5.5 4.5 0 5.2).render
      (YAxis.new Numeric.default Grid.accurate 10 0 10)).2.getD 4 Glyph.void =
        Glyph.void := of_decide_eq_true (by with_unfolding_all rfl)
  have e5 : ((Candle.mk 0 5.5 4.5 0 5.2).render
      (YAxis.new Numeric.default Grid.accurate 10 0 10)).2.getD 5 Glyph.void =
        Glyph.wick := of_decide_eq_true (by with_unfolding_all rfl)
  refine ⟨by norm_num, e3, e4, e5, ?_⟩
  intro hgap
  exact hgap 3 4 5 (by norm_num) (by norm_num) (by rw [e3]; simp) (by rw [e5]; simp) e4

/-! ### C2: render determinism / idempotence -/

/-- The writes of `ws` that land on cell `p`, in order. -/
def cellWrites (ws : List WriteOp) (p : ℕ × ℕ) : List WriteOp :=
  ws.filter (fun w => p = (w.x, w.y))

/-- The symbol a cell carries after a write sequence: the last write wins. -/
def symFold (l : List WriteOp) (s : Char) : Char :=
  l.foldl (fun _ w => w.sym) s

/-- The foreground after a write sequence: the last colour-setting write
wins, otherwise the previous foreground persists. -/
def fgFold (l : List WriteOp) (f : Option Color) : Option Color :=
  l.foldl (fun f w => match w.fg with | some c => some c | none => f) f

theorem applyOps_apply (ws : List WriteOp) (b : Buffer) (p : ℕ × ℕ) :
    applyOps ws b p =
      ⟨symFold (cellWrites ws p) ((b p).sym), fgFold (cellWrites ws p) ((b p).fg)⟩ := by
  induction ws generalizing b with
  | nil => rfl
  | cons w ws ih =>
    have hstep : applyOps (w :: ws) b = applyOps ws (applyOp w b) := rfl
    rw [hstep, ih]
    by_cases hp : p = (w.x, w.y)
    · have hfil : cellWrites (w :: ws) p = w :: cellWrites ws p := by
        simp [cellWrites, List.filter_cons, hp]
      have happ : applyOp w b p =
          ⟨w.sym, match w.fg with | some c => some c | none => (b p).fg⟩ := by
        unfold applyOp
        rw [if_pos hp]
      rw [hfil, happ]
      rfl
    · have hfil : cellWrites (w :: ws) p = cellWrites ws p := by
        simp [cellWrites, List.filter_cons, hp]
      have happ : applyOp w b p = b p := by
        unfold applyOp
        rw [if_neg hp]
      rw [hfil, happ]

theorem symFold_symFold (l : List WriteOp) (s : Char) :
    symFold l (symFold l s) = symFold l s := by
  cases l with
  | nil => rfl
  | cons w l => rfl

theorem fgFold_fgFold (l : List WriteOp) (f : Option Color) :
    fgFold l (fgFold l f) = fgFold l f := by
  induction l generalizing f with
  | nil => rfl
  | cons w l ih =>
    have hunf : ∀ x, fgFold (w :: l) x =
        fgFold l (match w.fg with | some c => some c | none => x) := fun _ => rfl
    cases hw : w.fg with
    | none =>
      simp only [hunf, hw]
      exact ih f
    | some c =>
      simp only [hunf, hw]

/-- Re-playing the same write sequence over its own result changes
nothing. -/
theorem applyOps_idem (ws : List WriteOp) (b : Buffer) :
    applyOps ws (applyOps ws b) = applyOps ws b := by
  funext p
  rw [applyOps_apply ws (applyOps ws b) p, applyOps_apply ws b p]
  show (⟨symFold (cellWrites ws p) (symFold (cellWrites ws p) (b p).sym),
      fgFold (cellWrites ws p) (fgFold (cellWrites ws p) (b p).fg)⟩ : Cell) = _
  rw [symFold_symFold, fgFold_fgFold]

theorem getLastD_irrel (a : Candle) (l : List Candle) (d d' : Candle) :
    (a :: l).getLastD d = (a :: l).getLastD d' := by
  rw [List.getLastD_cons, List.getLastD_cons]

theorem getLastD_mem (l : List Candle) (h : l ≠ []) (d : Candle) :
    l.getLastD d ∈ l := by
  induction l generalizing d with
  | nil => exact absurd rfl h
  | cons a m ih =>
    cases m with
    | nil => simp [List.getLastD_cons]
    | cons b mm =>
      rw [List.getLastD_cons]
      exact List.mem_cons_of_mem a (ih (by simp) a)

/-- In an ascending series every timestamp is at most the last one. -/
theorem timestamp_le_getLastD (cs : List Candle)
    (hs : cs.Pairwise (fun a b => a.timestamp ≤ b.timestamp)) :
    ∀ x ∈ cs, x.timestamp ≤ (cs.getLastD dummyCandle).timestamp := by
  induction cs with
  | nil => intro x hx; simp at hx
  | cons a l ih =>
    intro x hx
    rcases List.mem_cons.mp hx with heq | hxl
    · rw [heq]
      cases l with
      | nil => simp [List.getLastD_cons]
      | cons b m =>
        rw [List.getLastD_cons]
        exact (List.pairwise_cons.mp hs).1 _ (getLastD_mem (b :: m) (by simp) a)
    · have hl : l ≠ [] := by rintro rfl; simp at hxl
      have hx2 := ih (List.pairwise_cons.mp hs).2 x hxl
      cases l with
      | nil => exact absurd rfl hl
      | cons b m =>
        rw [List.getLastD_cons]
        rw [getLastD_irrel b m a dummyCandle]
        exact hx2

/-- With an ascending series, a cursor equal to the latest timestamp skips
exactly as many candles as the live view. -/
theorem chartSkipped_latest (cfg : CandleStickChart) (area : Area)
    (hs : cfg.candles.Pairwise (fun a b => a.timestamp ≤ b.timestamp)) :
    chartSkipped cfg area (some (chartLatest cfg)) = chartSkipped cfg area none := by
  have hcount : List.countP
      (fun c => decide (c.timestamp ≤ (cfg.candles.getLastD dummyCandle).timestamp))
      cfg.candles = cfg.candles.length :=
    List.countP_eq_length.mpr
      (fun a ha => decide_eq_true (timestamp_le_getLastD cfg.candles hs a ha))
  show (if area.width - chartYWidth cfg < List.countP
        (fun c => decide (c.timestamp ≤ (cfg.candles.getLastD dummyCandle).timestamp))
        cfg.candles
      then List.countP
          (fun c => decide (c.timestamp ≤ (cfg.candles.getLastD dummyCandle).timestamp))
          cfg.candles - (area.width - chartYWidth cfg)
      else 0) =
    (if area.width - chartYWidth cfg < cfg.candles.length
      then cfg.candles.length - (area.width - chartYWidth cfg) else 0)
  rw [hcount]

theorem chartInfo_first_le_last (cfg : CandleStickChart) (area : Area)
    (hs : cfg.candles.Pairwise (fun a b => a.timestamp ≤ b.timestamp)) :
    (chartInfoOf cfg area).cursor_first_timestamp ≤
      (chartInfoOf cfg area).cursor_last_timestamp := by
  show (if area.width - chartYWidth cfg < cfg.candles.length
      then (cfg.candles.getD (area.width - chartYWidth cfg - 1) dummyCandle).timestamp
      else chartLatest cfg) ≤ chartLatest cfg
  split
  · next h =>
    rw [List.getD_eq_getElem _ _ (by omega)]
    exact timestamp_le_getLastD cfg.candles hs _ (List.getElem_mem _)
  · exact le_refl _

theorem clampI_idem (x lo hi : ℤ) (h : lo ≤ hi) :
    clampI (clampI x lo hi) lo hi = clampI x lo hi := by
  unfold clampI
  omega

/-- Branch equations for `renderChart`. -/
theorem renderChart_empty (cfg : CandleStickChart) (area : Area) (nowMs : ℤ)
    (b : Buffer) (s : ChartState) (h1 : cfg.candles = []) :
    renderChart cfg area nowMs b s = some (b, s) := by
  unfold renderChart
  rw [if_pos h1]

theorem renderChart_narrow (cfg : CandleStickChart) (area : Area) (nowMs : ℤ)
    (b : Buffer) (s : ChartState) (h1 : ¬ cfg.candles = [])
    (h2 : area.width ≤ chartYWidth cfg) :
    renderChart cfg area nowMs b s = some (b, s) := by
  unfold renderChart
  rw [if_neg h1, if_pos h2]

theorem renderChart_short (cfg : CandleStickChart) (area : Area) (nowMs : ℤ)
    (b : Buffer) (s : ChartState) (h1 : ¬ cfg.candles = [])
    (h2 : ¬ area.width ≤ chartYWidth cfg) (h3 : area.height < 3) :
    renderChart cfg area nowMs b s = none := by
  unfold renderChart
  rw [if_neg h1, if_neg h2, if_pos h3]

theorem renderChart_main (cfg : CandleStickChart) (area : Area) (nowMs : ℤ)
    (b : Buffer) (s : ChartState) (h1 : ¬ cfg.candles = [])
    (h2 : ¬ area.width ≤ chartYWidth cfg) (h3 : ¬ area.height < 3) :
    renderChart cfg area nowMs b s =
      some (applyOps (chartOps cfg area nowMs
          ((s.set_info (chartInfoOf cfg area)).cursor_timestamp)) b,
        s.set_info (chartInfoOf cfg area)) := by
  unfold renderChart
  rw [if_neg h1, if_neg h2, if_neg h3]

/-- The cursor after `set_info`, as one equation. -/
theorem set_info_cursor_eq (s : ChartState) (i : ChartInfo) :
    (s.set_info i).cursor_timestamp =
      match s.cursor_timestamp with
      | some t => if t = i.latest_timestamp then none
          else some (clampI t i.cursor_first_timestamp i.cursor_last_timestamp)
      | none => none := rfl

/-- **C2 (amended).**  Two consecutive `render` calls with the same
(ascending) candles, area and wall-clock reading produce identical buffer
contents; the resulting viewport states agree as well except in one forced
case: when the first call clamps a stale cursor onto the latest timestamp,
the second call collapses that cursor to `Live` (`None`) — from then on
rendering is a fixpoint. -/
theorem render_idempotent (cfg : CandleStickChart) (area : Area) (nowMs : ℤ)
    (b0 : Buffer) (s0 : ChartState)
    (hs : cfg.candles.Pairwise (fun a b => a.timestamp ≤ b.timestamp)) :
    (renderChart cfg area nowMs b0 s0).elim True (fun r1 =>
      (renderChart cfg area nowMs r1.1 r1.2).elim True (fun r2 =>
        r2.1 = r1.1 ∧ r2.2.info = r1.2.info ∧
          (r2.2.cursor_timestamp = r1.2.cursor_timestamp ∨
            (r1.2.cursor_timestamp = some (chartLatest cfg) ∧
              r2.2.cursor_timestamp = none)))) := by
  by_cases h1 : cfg.candles = []
  · have e1 := renderChart_empty cfg area nowMs b0 s0 h1
    simp only [e1, Option.elim]
    exact ⟨trivial, trivial, Or.inl trivial⟩
  by_cases h2 : area.width ≤ chartYWidth cfg
  · have e1 := renderChart_narrow cfg area nowMs b0 s0 h1 h2
    simp only [e1, Option.elim]
    exact ⟨trivial, trivial, Or.inl trivial⟩
  by_cases h3 : area.height < 3
  · have e1 := renderChart_short cfg area nowMs b0 s0 h1 h2 h3
    simp only [e1, Option.elim]
  -- main branch
  have e1 := renderChart_main cfg area nowMs b0 s0 h1 h2 h3
  have e2 := renderChart_main cfg area nowMs
    (applyOps (chartOps cfg area nowMs
      ((s0.set_info (chartInfoOf cfg area)).cursor_timestamp)) b0)
    (s0.set_info (chartInfoOf cfg area)) h1 h2 h3
  simp only [e1, Option.elim, e2]
  -- name the pieces
  have hFL := chartInfo_first_le_last cfg area hs
  have hlatest : (chartInfoOf cfg area).latest_timestamp = chartLatest cfg := rfl
  refine ⟨?_, rfl, ?_⟩
  · -- buffers agree
    cases hc0 : s0.cursor_timestamp with
    | none =>
      have hc1 : (s0.set_info (chartInfoOf cfg area)).cursor_timestamp = none := by
        rw [set_info_cursor_eq, hc0]
      have hc2 : ((s0.set_info (chartInfoOf cfg area)).set_info
          (chartInfoOf cfg area)).cursor_timestamp = none := by
        rw [set_info_cursor_eq, hc1]
      rw [hc2, hc1]
      exact applyOps_idem _ _
    | some t =>
      have hc1 : (s0.set_info (chartInfoOf cfg area)).cursor_timestamp =
          if t = (chartInfoOf cfg area).latest_timestamp then none
          else some (clampI t (chartInfoOf cfg area).cursor_first_timestamp
            (chartInfoOf cfg area).cursor_last_timestamp) := by
        rw [set_info_cursor_eq, hc0]
      by_cases ht : t = (chartInfoOf cfg area).latest_timestamp
      · rw [if_pos ht] at hc1
        have hc2 : ((s0.set_info (chartInfoOf cfg area)).set_info
            (chartInfoOf cfg area)).cursor_timestamp = none := by
          rw [set_info_cursor_eq, hc1]
        rw [hc2, hc1]
        exact applyOps_idem _ _
      · rw [if_neg ht] at hc1
        have hc2 : ((s0.set_info (chartInfoOf cfg area)).set_info
            (chartInfoOf cfg area)).cursor_timestamp =
            if clampI t (chartInfoOf cfg area).cursor_first_timestamp
                (chartInfoOf cfg area).cursor_last_timestamp =
              (chartInfoOf cfg area).latest_timestamp then none
            else some (clampI (clampI t (chartInfoOf cfg area).cursor_first_timestamp
                (chartInfoOf cfg area).cursor_last_timestamp)
              (chartInfoOf cfg area).cursor_first_timestamp
              (chartInfoOf cfg area).cursor_last_timestamp) := by
          rw [set_info_cursor_eq, hc1]
        by_cases hu : clampI t (chartInfoOf cfg area).cursor_first_timestamp
            (chartInfoOf cfg area).cursor_last_timestamp =
          (chartInfoOf cfg area).latest_timestamp
        · rw [if_pos hu] at hc2
          rw [hc2, hc1, hu, hlatest]
          have hops : chartOps cfg area nowMs (some (chartLatest cfg)) =
              chartOps cfg area nowMs none :=
            congrArg (chartOpsFromSkip cfg area nowMs) (chartSkipped_latest cfg area hs)
          rw [hops]
          exact applyOps_idem _ _
        · rw [if_neg hu, clampI_idem _ _ _ hFL] at hc2
          rw [hc2, hc1]
          exact applyOps_idem _ _
  · -- cursors agree or collapse
    cases hc0 : s0.cursor_timestamp with
    | none =>
      have hc1 : (s0.set_info (chartInfoOf cfg area)).cursor_timestamp = none := by
        rw [set_info_cursor_eq, hc0]
      have hc2 : ((s0.set_info (chartInfoOf cfg area)).set_info
          (chartInfoOf cfg area)).cursor_timestamp = none := by
        rw [set_info_cursor_eq, hc1]
      exact Or.inl (hc2.trans hc1.symm)
    | some t =>
      have hc1 : (s0.set_info (chartInfoOf cfg area)).cursor_timestamp =
          if t = (chartInfoOf cfg area).latest_timestamp then none
          else some (clampI t (chartInfoOf cfg area).cursor_first_timestamp
            (chartInfoOf cfg area).cursor_last_timestamp) := by
        rw [set_info_cursor_eq, hc0]
      by_cases ht : t = (chartInfoOf cfg area).latest_timestamp
      · rw [if_pos ht] at hc1
        have hc2 : ((s0.set_info (chartInfoOf cfg area)).set_info
            (chartInfoOf cfg area)).cursor_timestamp = none := by
          rw [set_info_cursor_eq, hc1]
        exact Or.inl (hc2.trans hc1.symm)
      · rw [if_neg ht] at hc1
        have hc2 : ((s0.set_info (chartInfoOf cfg area)).set_info
            (chartInfoOf cfg area)).cursor_timestamp =
            if clampI t (chartInfoOf cfg area).cursor_first_timestamp
                (chartInfoOf cfg area).cursor_last_timestamp =
              (chartInfoOf cfg area).latest_timestamp then none
            else some (clampI (clampI t (chartInfoOf cfg area).cursor_first_timestamp
                (chartInfoOf cfg area).cursor_last_timestamp)
              (chartInfoOf cfg area).cursor_first_timestamp
              (chartInfoOf cfg area).cursor_last_timestamp) := by
          rw [set_info_cursor_eq, hc1]
        by_cases hu : clampI t (chartInfoOf cfg area).cursor_first_timestamp
            (chartInfoOf cfg area).cursor_last_timestamp =
          (chartInfoOf cfg area).latest_timestamp
        · rw [if_pos hu] at hc2
          refine Or.inr ⟨?_, hc2⟩
          rw [hc1, hu, hlatest]
        · rw [if_neg hu, clampI_idem _ _ _ hFL] at hc2
          exact Or.inl (hc2.trans hc1.symm)

/-- **C2 witness.** -/
theorem render_idempotent_witness :
    exCfg.candles.Pairwise (fun a b => a.timestamp ≤ b.timestamp) ∧
      ((renderChart exCfg ⟨30, 8⟩ 0 emptyBuffer ChartState.default).elim True fun r1 =>
        (renderChart exCfg ⟨30, 8⟩ 0 r1.1 r1.2).elim True fun r2 =>
          r2.1 = r1.1 ∧ r2.2.info = r1.2.info ∧
            (r2.2.cursor_timestamp = r1.2.cursor_timestamp ∨
              (r1.2.cursor_timestamp = some (chartLatest exCfg) ∧
                r2.2.cursor_timestamp = none))) :=
  ⟨by rw [show exCfg.candles = [⟨0, 0.9, 3, 0, 2.1⟩] from rfl]
      exact List.pairwise_singleton _ _,
    render_idempotent exCfg ⟨30, 8⟩ 0 emptyBuffer ChartState.default
      (by rw [show exCfg.candles = [⟨0, 0.9, 3, 0, 2.1⟩] from rfl]
          exact List.pairwise_singleton _ _)⟩

set_option maxRecDepth 8000 in
/-- **C2 (counterexample).**  The claim as frozen quantifies over every
viewport state.  Starting from the (stale) cursor `Some 60000` over a
single-candle series whose latest timestamp is `0`, the first render clamps
the cursor to `Some 0`, and the second render — same candles, same area,
same wall clock — collapses it to `None`: the two consecutive calls produce
different resulting viewport states (their buffers are equal, as the
amended theorem proves). -/
theorem render_idempotent_counterexample :
    ((renderChart exCfg ⟨30, 8⟩ 0 emptyBuffer ⟨none, some 60000⟩).map
        (fun r => r.2.cursor_timestamp) = some (some 0)) ∧
      (((renderChart exCfg ⟨30, 8⟩ 0 emptyBuffer ⟨none, some 60000⟩).elim none fun r1 =>
          (renderChart exCfg ⟨30, 8⟩ 0 r1.1 r1.2).map fun r2 => r2.2.cursor_timestamp) =
        some none) ∧
      some (0 : ℤ) ≠ (none : Option ℤ) :=
  ⟨of_decide_eq_true (by with_unfolding_all rfl),
    of_decide_eq_true (by with_unfolding_all rfl), by simp⟩

/-! ### C6: degenerate-layout behaviour -/

set_option maxRecDepth 8000 in
/-- **C6 (code evaluated at the failing input).**  The claim says an area of
height at most 3 writes nothing and cannot panic; the code has no height
guard: at height 2 the `u16` computation `area.height - 3` underflows (a
panic in debug builds, modelled as `none`), and at height 3 the render
completes and writes the x-axis corner `└` into cell `(11, 0)` of a buffer
that previously held a blank there.  (The empty-series and narrow-width
no-op branches of the claim do hold: `renderChart_empty`,
`renderChart_narrow`.) -/
theorem render_short_area_writes :
    renderChart exCfg ⟨14, 2⟩ 0 emptyBuffer ChartState.default = none ∧
      ((renderChart exCfg ⟨14, 3⟩ 0 emptyBuffer ChartState.default).map
        (fun r => (r.1 (11, 0)).sym)) = some '└' ∧
      (emptyBuffer (11, 0)).sym = ' ' := by
  have h1 : ¬ exCfg.candles = [] := of_decide_eq_true (by with_unfolding_all rfl)
  have h2 : ¬ (Area.mk 14 2).width ≤ chartYWidth exCfg :=
    of_decide_eq_true (by with_unfolding_all rfl)
  have h2b : ¬ (Area.mk 14 3).width ≤ chartYWidth exCfg := h2
  have h3 : ¬ (Area.mk 14 3).height < 3 := by norm_num
  refine ⟨?_, ?_, rfl⟩
  · exact renderChart_short exCfg ⟨14, 2⟩ 0 emptyBuffer ChartState.default h1 h2
      (by norm_num)
  · rw [renderChart_main exCfg ⟨14, 3⟩ 0 emptyBuffer ChartState.default h1 h2b h3]
    show some ((applyOps (chartOps exCfg ⟨14, 3⟩ 0
        ((ChartState.default.set_info (chartInfoOf exCfg ⟨14, 3⟩)).cursor_timestamp))
        emptyBuffer (11, 0)).sym) = some '└'
    congr 1
    show (applyOps (chartOps exCfg ⟨14, 3⟩ 0 none) emptyBuffer (11, 0)).sym = '└'
    exact of_decide_eq_true (by with_unfolding_all rfl)

end CandleChart
